import Mathlib

/-!
Verification of the coupon-issuance backend (`src/main.py`, `src/schemas.py`).

The embedding models the two core components described by the spec:
the Sequencer (`_get_next_sequence`, backed by an atomic Mongo
find-and-increment on the `counters` collection) and the Issuer
(`generate_coupon`, which formats a code, persists a `Coupon` record and
renders a PNG).  The document store (`database.db`, `create_document`)
and the atomic `find_one_and_update` primitive are external collaborators
whose contract is given by the spec; they are modelled explicitly below.
Failures (missing database handle, failed persistence, unavailable
renderer) are injected through explicit flags so the error paths of
`generate_coupon` can be analysed.
-/

namespace CouponBackend

/-- Counter store of the `counters` Mongo collection: an association list
from sequence name (`_id`) to the optional numeric `value` field of the
document.  A name absent from the list means no counter document exists;
`some none` means the document exists but has no `value` field. -/
abbrev CounterStore := List (String × Option Int)

/-- Find the counter document for a name: `none` when no document exists,
otherwise the (optional) `value` field of the first matching document. -/
def findDoc : CounterStore → String → Option (Option Int)
  | [], _ => none
  | (k, v) :: rest, name => if k = name then some v else findDoc rest name

/-- Replace (or insert) the counter document for a name with the given
`value` field. -/
def setDoc : CounterStore → String → Option Int → CounterStore
  | [], name, v => [(name, v)]
  | (k, w) :: rest, name, v =>
      if k = name then (k, v) :: rest else (k, w) :: setDoc rest name v

/-- Modelled from the spec: the document store's atomic
"find document by key, increment a numeric field by 1, create if absent,
return post-increment value" primitive (pymongo
`find_one_and_update({_id: name}, {$inc: {value: 1}}, upsert=True,
return_document=AFTER)`; the `database` module itself is not under
`src/`).  Creating a missing document or a missing `value` field through
`$inc` initialises the field to the increment, so the returned
post-increment document always carries a `value` field. -/
def findOneAndUpdateInc (s : CounterStore) (name : String) :
    CounterStore × Option Int :=
  match findDoc s name with
  | none => (setDoc s name (some 1), some 1)
  | some none => (setDoc s name (some 1), some 1)
  | some (some v) => (setDoc s name (some (v + 1)), some (v + 1))

/-- Coupon record, from `schemas.py`: `code` required, `channel` defaults
to `"whatsapp"`, `redeemed` defaults to `false`. -/
structure Coupon where
  code : String
  channel : Option String := some "whatsapp"
  redeemed : Bool := false
  deriving Repr, DecidableEq

/-- Application state visible to the core: whether the database handle
`db` is configured (`db is not None`), the `counters` collection, and the
`coupon` collection. -/
structure AppState where
  dbConfigured : Bool
  counters : CounterStore
  coupons : List Coupon
  deriving Repr, DecidableEq

/-- Errors surfaced by one issuance request, matching `main.py`:
`HTTPException(500, "Database not configured")`, a persistence failure
caught by the generic handler (JSON 500 error response), and
`HTTPException(503, "Image generator unavailable...")`. -/
inductive IssueError where
  | dbNotConfigured
  | persistenceError
  | renderUnavailable
  deriving Repr, DecidableEq

/-- Python falsy-coalescing `doc.get("value") or 1` from
`_get_next_sequence`: `None` and `0` are falsy and fall back to `1`;
every other integer is returned unchanged. -/
def orOneCoerce : Option Int → Int
  | none => 1
  | some v => if v = 0 then 1 else v

/-- `_get_next_sequence` from `main.py`: raises when `db` is `None`,
otherwise performs the atomic find-and-increment on the `counters`
collection and returns `int(doc.get("value") or 1)` together with the
updated state. -/
def getNextSequence (st : AppState) (seqName : String) :
    Except IssueError (Int × AppState) :=
  if st.dbConfigured = false then
    .error .dbNotConfigured
  else
    let r := findOneAndUpdateInc st.counters seqName
    .ok (orOneCoerce r.2, { st with counters := r.1 })

/-- Left-pad a string with zeros to the given width (no truncation). -/
def padZeros (s : String) (w : Nat) : String :=
  String.mk (List.replicate (w - s.length) '0') ++ s

/-- Python's `f"{seq:06d}"`: zero-pad to a total width of 6, the sign
included in the width; values needing more digits are never truncated. -/
def formatSeq6 (n : Int) : String :=
  if n < 0 then "-" ++ padZeros (toString n.natAbs) 5
  else padZeros (toString n.natAbs) 6

/-- The process-wide constant `COUPON_PREFIX` from `main.py`. -/
def COUPON_PREFIX : String := "WBAU10DIC-"

/-- Rendered raster image returned by the external renderer, abstracted
to the code it was rendered for (the spec treats rendering as an external
collaborator producing opaque binary output from the code string). -/
structure ImageBytes where
  forCode : String
  deriving Repr, DecidableEq

/-- Modelled from the spec: the external image renderer
(`_build_coupon_image`), which either fails with `RenderUnavailable`
(pillow or its font assets missing) or returns encoded image bytes for
the code.  The failure is injected through the flag. -/
def buildCouponImage (code : String) (renderFails : Bool) :
    Except IssueError ImageBytes :=
  if renderFails then .error .renderUnavailable
  else .ok { forCode := code }

/-- Successful issuance result: the streamed image, the generated code
(exposed in the `X-Coupon-Code` header) and the attachment filename. -/
structure IssueResult where
  code : String
  image : ImageBytes
  filename : String
  deriving Repr, DecidableEq

/-- Failure injection for one issuance request: whether
`create_document` fails and whether the renderer is unavailable. -/
structure Faults where
  persistFails : Bool
  renderFails : Bool
  deriving Repr, DecidableEq

/-- `generate_coupon` from `main.py`: obtain the next sequence value,
format the code, persist the `Coupon` record (`create_document` is
modelled from the spec as appending to the `coupon` collection, failing
without a write when the injected fault is set), then build the image and
return it with the code and filename.  Each failure exit returns the
state as mutated so far: a persistence failure keeps the consumed
counter; a render failure keeps both the counter and the persisted
record. -/
def generateCoupon (st : AppState) (f : Faults) :
    Except IssueError IssueResult × AppState :=
  match getNextSequence st "coupon" with
  | .error e => (.error e, st)
  | .ok (seq, st1) =>
    let code := COUPON_PREFIX ++ formatSeq6 seq
    if f.persistFails then
      (.error .persistenceError, st1)
    else
      let st2 := { st1 with coupons := st1.coupons ++ [{ code := code }] }
      match buildCouponImage code f.renderFails with
      | .error e => (.error e, st2)
      | .ok img =>
        (.ok { code := code, image := img,
               filename := "miabaucoupon_" ++ code ++ ".png" }, st2)

/-- No injected faults: persistence and rendering both succeed. -/
def noFaults : Faults := { persistFails := false, renderFails := false }

/-- A fresh, configured application state: database handle present, no
counter documents, no coupon records. -/
def freshState : AppState :=
  { dbConfigured := true, counters := [], coupons := [] }

/-- Run `n` calls to `_get_next_sequence` in sequence, collecting the
returned values.  Each call is one atomic step on the counter store, so
any interleaving of `n` concurrent calls is equal to this sequential
composition.  A failing call contributes no value and stops. -/
def runCalls : AppState → String → Nat → List Int × AppState
  | st, _, 0 => ([], st)
  | st, name, Nat.succ n =>
    match getNextSequence st name with
    | .error _ => ([], st)
    | .ok (v, st1) =>
      let r := runCalls st1 name n
      (v :: r.1, r.2)

/-- Issue `n` coupons in sequence with no injected faults, collecting the
codes of the successful issuances in order. -/
def issueCodes : AppState → Nat → List String
  | _, 0 => []
  | st, Nat.succ n =>
    match generateCoupon st noFaults with
    | (.ok r, st1) => r.code :: issueCodes st1 n
    | (.error _, st1) => issueCodes st1 n

/-- The post-increment `value` the atomic primitive produces from the
counter document it found: `v + 1` when the document exists with value
`v`, and `1` when the document or its `value` field is absent (the upsert
initialises the field to the increment). -/
def nextVal : Option (Option Int) → Int
  | some (some v) => v + 1
  | _ => 1

/-- A counter document conforming to the data model: its `value`, when
present, is a non-negative integer.  Every state reachable by this
system satisfies it, since counters are only created at `1` and
incremented. -/
def docValOk : Option (Option Int) → Prop
  | some (some v) => 0 ≤ v
  | _ => True

/-- The state after the atomic increment wrote `v` as the counter value
for `name`: only the `counters` collection changes. -/
def bumpState (st : AppState) (name : String) (v : Int) : AppState :=
  { st with counters := setDoc st.counters name (some v) }

/-- The integer a successful `_get_next_sequence` call returns from
state `st`: the post-increment value run through the `or 1` coercion. -/
def seqRet (st : AppState) (name : String) : Int :=
  orOneCoerce (some (nextVal (findDoc st.counters name)))

/-- The coupon code `generate_coupon` builds from state `st`. -/
def genCode (st : AppState) : String :=
  COUPON_PREFIX ++ formatSeq6 (seqRet st "coupon")

/-- The state after one issuance has consumed the sequence value and
persisted the `Coupon` record (reached whenever persistence succeeds,
whether or not rendering then fails). -/
def persistedState (st : AppState) : AppState :=
  let st1 := bumpState st "coupon" (nextVal (findDoc st.counters "coupon"))
  { st1 with coupons := st1.coupons ++ [{ code := genCode st }] }

/-- A configured state whose `coupon` counter stands at 6, so that the
next sequence value is 7. -/
def stAt6 : AppState :=
  { dbConfigured := true, counters := [("coupon", some 6)], coupons := [] }

/-- A state whose database handle is not configured (`db is None`). -/
def stNoDb : AppState :=
  { dbConfigured := false, counters := [], coupons := [] }

/-! Helper lemmas about the counter store and the sequencer. -/

theorem findDoc_setDoc_self (s : CounterStore) (name : String) (v : Option Int) :
    findDoc (setDoc s name v) name = some v := by
  induction s with
  | nil => simp [setDoc, findDoc]
  | cons hd tl ih =>
    obtain ⟨k, w⟩ := hd
    by_cases hk : k = name
    · simp [setDoc, hk, findDoc]
    · simp [setDoc, hk, findDoc, ih]

theorem findOneAndUpdateInc_eq (s : CounterStore) (name : String) :
    findOneAndUpdateInc s name =
      (setDoc s name (some (nextVal (findDoc s name))),
        some (nextVal (findDoc s name))) := by
  rcases h : findDoc s name with _ | (_ | v) <;>
    simp [findOneAndUpdateInc, nextVal, h]

theorem getNextSequence_ok (st : AppState) (name : String)
    (hdb : st.dbConfigured = true) :
    getNextSequence st name =
      .ok (orOneCoerce (some (nextVal (findDoc st.counters name))),
        bumpState st name (nextVal (findDoc st.counters name))) := by
  simp [getNextSequence, hdb, findOneAndUpdateInc_eq, bumpState]

theorem nextVal_pos (d : Option (Option Int)) (h : docValOk d) :
    1 ≤ nextVal d := by
  rcases d with _ | (_ | v)
  · simp [nextVal]
  · simp [nextVal]
  · simp only [docValOk] at h
    simp only [nextVal]
    omega

theorem orOneCoerce_nextVal (d : Option (Option Int)) (h : docValOk d) :
    orOneCoerce (some (nextVal d)) = nextVal d := by
  have h1 := nextVal_pos d h
  simp only [orOneCoerce]
  rw [if_neg (by omega)]

theorem getNextSequence_step (st : AppState) (name : String)
    (hdb : st.dbConfigured = true)
    (hok : docValOk (findDoc st.counters name)) :
    getNextSequence st name =
      .ok (nextVal (findDoc st.counters name),
        bumpState st name (nextVal (findDoc st.counters name))) := by
  rw [getNextSequence_ok st name hdb, orOneCoerce_nextVal _ hok]

theorem bumpState_dbConfigured (st : AppState) (name : String) (v : Int) :
    (bumpState st name v).dbConfigured = st.dbConfigured := rfl

theorem bumpState_findDoc (st : AppState) (name : String) (v : Int) :
    findDoc (bumpState st name v).counters name = some (some v) :=
  findDoc_setDoc_self st.counters name (some v)

theorem runCalls_aux (name : String) (n : Nat) :
    ∀ (st : AppState) (k : Int), st.dbConfigured = true →
      findDoc st.counters name = some (some k) → 0 ≤ k →
      (runCalls st name n).1 = (List.range n).map (fun i : Nat => k + 1 + (i : Int)) ∧
        (runCalls st name n).2.dbConfigured = true ∧
        findDoc (runCalls st name n).2.counters name = some (some (k + (n : Int))) := by
  induction n with
  | zero =>
    intro st k hdb hfind hk
    refine ⟨by simp [runCalls], by simp [runCalls, hdb], ?_⟩
    simpa [runCalls] using hfind
  | succ n ih =>
    intro st k hdb hfind hk
    have hok : docValOk (findDoc st.counters name) := by
      rw [hfind]; exact hk
    have hstep := getNextSequence_step st name hdb hok
    rw [hfind] at hstep
    simp only [nextVal] at hstep
    have hfind1 : findDoc (bumpState st name (k + 1)).counters name
        = some (some (k + 1)) := bumpState_findDoc st name (k + 1)
    obtain ⟨hv, hdb2, hf2⟩ :=
      ih (bumpState st name (k + 1)) (k + 1) hdb hfind1 (by omega)
    simp only [runCalls, hstep]
    refine ⟨?_, hdb2, ?_⟩
    · rw [hv, List.range_succ_eq_map, List.map_cons, List.map_map]
      congr 1
      · omega
      · apply List.map_congr_left
        intro i _
        simp only [Function.comp_apply]
        omega
    · rw [hf2]
      congr 2
      omega

theorem runCalls_vals (st : AppState) (name : String) (N : Nat)
    (hdb : st.dbConfigured = true) (hok : docValOk (findDoc st.counters name)) :
    (runCalls st name N).1 =
      (List.range N).map
        (fun i : Nat => nextVal (findDoc st.counters name) + (i : Int)) := by
  cases N with
  | zero => simp [runCalls]
  | succ n =>
    have hstep := getNextSequence_step st name hdb hok
    have hm1 : 1 ≤ nextVal (findDoc st.counters name) := nextVal_pos _ hok
    obtain ⟨hv, -, -⟩ :=
      runCalls_aux name n (bumpState st name (nextVal (findDoc st.counters name)))
        (nextVal (findDoc st.counters name)) hdb
        (bumpState_findDoc st name (nextVal (findDoc st.counters name))) (by omega)
    simp only [runCalls, hstep]
    rw [hv, List.range_succ_eq_map, List.map_cons, List.map_map]
    congr 1
    · omega
    · apply List.map_congr_left
      intro i _
      simp only [Function.comp_apply]
      omega

/-! Reduction lemmas for the four control-flow outcomes of
`generate_coupon`. -/

theorem generateCoupon_noDb (st : AppState) (f : Faults)
    (hdb : st.dbConfigured = false) :
    generateCoupon st f = (.error .dbNotConfigured, st) := by
  simp [generateCoupon, getNextSequence, hdb]

theorem generateCoupon_persistFail (st : AppState) (f : Faults)
    (hdb : st.dbConfigured = true) (hp : f.persistFails = true) :
    generateCoupon st f =
      (.error .persistenceError,
        bumpState st "coupon" (nextVal (findDoc st.counters "coupon"))) := by
  simp [generateCoupon, getNextSequence_ok st "coupon" hdb, hp]

theorem generateCoupon_renderFail (st : AppState) (f : Faults)
    (hdb : st.dbConfigured = true) (hp : f.persistFails = false)
    (hr : f.renderFails = true) :
    generateCoupon st f = (.error .renderUnavailable, persistedState st) := by
  simp [generateCoupon, getNextSequence_ok st "coupon" hdb, hp, hr,
    buildCouponImage, persistedState, genCode, seqRet]

theorem generateCoupon_success (st : AppState) (f : Faults)
    (hdb : st.dbConfigured = true) (hp : f.persistFails = false)
    (hr : f.renderFails = false) :
    generateCoupon st f =
      (.ok { code := genCode st, image := { forCode := genCode st },
             filename := "miabaucoupon_" ++ genCode st ++ ".png" },
        persistedState st) := by
  simp [generateCoupon, getNextSequence_ok st "coupon" hdb, hp, hr,
    buildCouponImage, persistedState, genCode, seqRet]

/-! Claim theorems. -/

/-- C1: For every N concurrent calls to `_get_next_sequence` on the
sequence name `"coupon"` against a fresh sequence, the set of returned
values is exactly the integers 1 to N, with no duplicates and no gaps.
Each call is a single atomic find-and-increment on the counter store, so
every interleaving of N concurrent calls coincides with their sequential
composition `runCalls`. -/
theorem C1_concurrent_fresh_calls_exact_range (N : Nat) :
    ((runCalls freshState "coupon" N).1).Nodup ∧
      ∀ v : Int, v ∈ (runCalls freshState "coupon" N).1 ↔ 1 ≤ v ∧ v ≤ (N : Int) := by
  have hok : docValOk (findDoc freshState.counters "coupon") := trivial
  have hvals := runCalls_vals freshState "coupon" N rfl hok
  have hone : nextVal (findDoc freshState.counters "coupon") = 1 := rfl
  rw [hone] at hvals
  constructor
  · rw [hvals]
    refine List.Nodup.map ?_ (List.nodup_range N)
    intro a b hab
    dsimp only at hab
    omega
  · intro v
    rw [hvals]
    simp only [List.mem_map, List.mem_range]
    constructor
    · rintro ⟨i, hi, rfl⟩
      omega
    · rintro ⟨h1, h2⟩
      refine ⟨(v - 1).toNat, by omega, by omega⟩

/-- C2: The first-ever successful call to `_get_next_sequence` on an
unused sequence name returns exactly the integer 1 (never 0, never an
empty/null value): the upsert creates the counter at value 1 and that
value is returned. -/
theorem C2_first_call_returns_one (st : AppState) (name : String)
    (hdb : st.dbConfigured = true) (hfresh : findDoc st.counters name = none) :
    getNextSequence st name = .ok (1, bumpState st name 1) := by
  have h := getNextSequence_step st name hdb (by rw [hfresh]; trivial)
  rw [hfresh] at h
  simpa [nextVal] using h

theorem C2_first_call_returns_one_witness :
    getNextSequence freshState "coupon" = .ok (1, bumpState freshState "coupon" 1) :=
  C2_first_call_returns_one freshState "coupon" rfl rfl

/-- C7: For every sequence name, the stored counter value only grows:
after a successful `_get_next_sequence` call the stored value equals the
returned value, which is strictly greater than the previously stored
value; and across any number of calls the returned values are pairwise
strictly increasing, so each successful call returns a value strictly
greater than every value previously returned for that name. -/
theorem C7_sequence_strictly_increasing (st : AppState) (name : String)
    (hdb : st.dbConfigured = true) (hok : docValOk (findDoc st.counters name)) :
    (∀ v st1, getNextSequence st name = .ok (v, st1) →
        findDoc st1.counters name = some (some v) ∧
          ∀ k, findDoc st.counters name = some (some k) → k < v) ∧
      ∀ N, List.Pairwise (· < ·) (runCalls st name N).1 := by
  constructor
  · intro v st1 hcall
    rw [getNextSequence_step st name hdb hok] at hcall
    simp only [Except.ok.injEq, Prod.mk.injEq] at hcall
    obtain ⟨rfl, rfl⟩ := hcall
    refine ⟨bumpState_findDoc st name _, ?_⟩
    intro k hk
    rw [hk]
    simp [nextVal]
  · intro N
    rw [runCalls_vals st name N hdb hok]
    refine List.Pairwise.map _ ?_ (List.pairwise_lt_range N)
    intro a b hab
    omega

theorem C7_sequence_strictly_increasing_witness :
    List.Pairwise (· < ·) (runCalls stAt6 "coupon" 3).1 :=
  (C7_sequence_strictly_increasing stAt6 "coupon" rfl
    (by simp [stAt6, findDoc, docValOk])).2 3

/-- C10: A successful `_get_next_sequence` call on any counter-store
state conforming to the data model (stored values non-negative) returns
an integer that is at least 1; and the `or 1` fallback coercion maps a
falsy post-increment `value` field (0 or absent) to 1 rather than 0 or
null. -/
theorem C10_sequence_value_positive :
    (∀ (st : AppState) (name : String), st.dbConfigured = true →
        docValOk (findDoc st.counters name) →
        ∀ v st1, getNextSequence st name = .ok (v, st1) → 1 ≤ v) ∧
      orOneCoerce (some 0) = 1 ∧ orOneCoerce none = 1 := by
  refine ⟨?_, rfl, rfl⟩
  intro st name hdb hok v st1 hcall
  rw [getNextSequence_step st name hdb hok] at hcall
  simp only [Except.ok.injEq, Prod.mk.injEq] at hcall
  obtain ⟨rfl, -⟩ := hcall
  exact nextVal_pos _ hok

theorem C10_sequence_value_positive_witness : (1 : Int) ≤ 1 :=
  C10_sequence_value_positive.1 freshState "coupon" rfl trivial 1
    (bumpState freshState "coupon" 1) rfl

/-- C3: In every issuance in which the sequencer returns `n`, the coupon
code produced is the fixed prefix `"WBAU10DIC-"` followed by `n`
zero-padded to 6 digits; for `n = 7` the code is `"WBAU10DIC-000007"`
and for `n = 1000000` it is `"WBAU10DIC-1000000"` (padding widens but
never truncates). -/
theorem C3_code_format (st : AppState) (f : Faults) (n : Int) (st1 : AppState)
    (hseq : getNextSequence st "coupon" = .ok (n, st1)) :
    (∀ r, (generateCoupon st f).1 = .ok r →
        r.code = COUPON_PREFIX ++ formatSeq6 n) ∧
      COUPON_PREFIX ++ formatSeq6 7 = "WBAU10DIC-000007" ∧
      COUPON_PREFIX ++ formatSeq6 1000000 = "WBAU10DIC-1000000" := by
  refine ⟨?_, rfl, rfl⟩
  intro r hr
  cases hb : st.dbConfigured
  · rw [getNextSequence, if_pos hb] at hseq
    cases hseq
  · rw [getNextSequence_ok st "coupon" hb] at hseq
    simp only [Except.ok.injEq, Prod.mk.injEq] at hseq
    obtain ⟨rfl, -⟩ := hseq
    cases hp : f.persistFails
    · cases hrf : f.renderFails
      · rw [generateCoupon_success st f hb hp hrf] at hr
        simp only [Except.ok.injEq] at hr
        rw [← hr]
        rfl
      · rw [generateCoupon_renderFail st f hb hp hrf] at hr
        cases hr
    · rw [generateCoupon_persistFail st f hb hp] at hr
      cases hr

theorem C3_code_format_witness :
    ({ code := "WBAU10DIC-000007", image := { forCode := "WBAU10DIC-000007" },
       filename := "miabaucoupon_WBAU10DIC-000007.png" } : IssueResult).code =
      COUPON_PREFIX ++ formatSeq6 7 :=
  (C3_code_format stAt6 noFaults 7 (bumpState stAt6 "coupon" 7) rfl).1 _ rfl

/-- C4: Three consecutive successful issuances starting from a fresh
sequence yield the codes `WBAU10DIC-000001`, `WBAU10DIC-000002` and
`WBAU10DIC-000003`, in that order. -/
theorem C4_three_issuances_in_order :
    issueCodes freshState 3 =
      ["WBAU10DIC-000001", "WBAU10DIC-000002", "WBAU10DIC-000003"] := by
  rfl

/-- C5: When persistence succeeds and rendering then fails, the request
fails with the render-unavailable error, yet the already-persisted
`Coupon` record for the generated code is still present, the consumed
counter value is still stored, and any subsequent successful sequencer
call returns a strictly greater value — the consumed value is never
reused.  The record's presence after the failed render also witnesses
that the record is persisted before rendering is attempted. -/
theorem C5_render_failure_keeps_record (st : AppState)
    (hdb : st.dbConfigured = true)
    (hok : docValOk (findDoc st.counters "coupon")) :
    (generateCoupon st { persistFails := false, renderFails := true }).1 =
        .error .renderUnavailable ∧
      ({ code := genCode st } : Coupon) ∈
        (generateCoupon st { persistFails := false, renderFails := true }).2.coupons ∧
      findDoc (generateCoupon st { persistFails := false, renderFails := true
          }).2.counters "coupon"
        = some (some (nextVal (findDoc st.counters "coupon"))) ∧
      ∀ v st2,
        getNextSequence
            (generateCoupon st { persistFails := false, renderFails := true }).2
            "coupon" = .ok (v, st2) →
          nextVal (findDoc st.counters "coupon") < v := by
  have hfd : findDoc (persistedState st).counters "coupon"
      = some (some (nextVal (findDoc st.counters "coupon"))) := by
    simp [persistedState, bumpState, findDoc_setDoc_self]
  rw [generateCoupon_renderFail st _ hdb rfl rfl]
  refine ⟨rfl, ?_, hfd, ?_⟩
  · simp [persistedState, bumpState]
  · intro v st2 hcall
    dsimp only at hcall
    have hm1 : 1 ≤ nextVal (findDoc st.counters "coupon") := nextVal_pos _ hok
    have hok2 : docValOk (findDoc (persistedState st).counters "coupon") := by
      rw [hfd]
      simp only [docValOk]
      omega
    have hdb2 : (persistedState st).dbConfigured = true := hdb
    rw [getNextSequence_step (persistedState st) "coupon" hdb2 hok2] at hcall
    simp only [Except.ok.injEq, Prod.mk.injEq] at hcall
    obtain ⟨rfl, -⟩ := hcall
    rw [hfd]
    simp [nextVal]

theorem C5_render_failure_keeps_record_witness :
    (generateCoupon stAt6 { persistFails := false, renderFails := true }).1 =
      .error .renderUnavailable :=
  (C5_render_failure_keeps_record stAt6 rfl (by simp [stAt6, findDoc, docValOk])).1

/-- C6: When persisting the record fails after the sequence value was
consumed, the request fails with the persistence error and no image is
returned; dually, whenever an issuance returns an image, that image was
rendered for the result's code and a record with that code is present in
the `coupon` collection — no image is ever returned for a code whose
record was not written. -/
theorem C6_persistence_source_of_truth :
    (∀ (st : AppState) (f : Faults), st.dbConfigured = true →
        f.persistFails = true →
        (generateCoupon st f).1 = .error .persistenceError) ∧
      ∀ (st : AppState) (f : Faults) (r : IssueResult),
        (generateCoupon st f).1 = .ok r →
          r.image.forCode = r.code ∧
            r.code ∈ (generateCoupon st f).2.coupons.map Coupon.code := by
  constructor
  · intro st f hdb hp
    rw [generateCoupon_persistFail st f hdb hp]
  · intro st f r hr
    cases hb : st.dbConfigured
    · rw [generateCoupon_noDb st f hb] at hr
      cases hr
    · cases hp : f.persistFails
      · cases hrf : f.renderFails
        · rw [generateCoupon_success st f hb hp hrf] at hr
          simp only [Except.ok.injEq] at hr
          obtain rfl := hr
          refine ⟨rfl, ?_⟩
          rw [generateCoupon_success st f hb hp hrf]
          simp [persistedState, bumpState]
        · rw [generateCoupon_renderFail st f hb hp hrf] at hr
          cases hr
      · rw [generateCoupon_persistFail st f hb hp] at hr
        cases hr

theorem C6_persistence_source_of_truth_witness :
    (generateCoupon freshState { persistFails := true, renderFails := false }).1 =
      .error .persistenceError :=
  C6_persistence_source_of_truth.1 freshState
    { persistFails := true, renderFails := false } rfl rfl

/-- C8: When the database handle is not configured, `_get_next_sequence`
fails with the configuration error, and every issuance request fails the
same way with the state — counter store and coupon collection —
completely unchanged: no sequence value is consumed and no record is
inserted. -/
theorem C8_unconfigured_fails_cleanly (st : AppState)
    (hdb : st.dbConfigured = false) :
    getNextSequence st "coupon" = .error .dbNotConfigured ∧
      ∀ f : Faults, generateCoupon st f = (.error .dbNotConfigured, st) := by
  refine ⟨?_, fun f => generateCoupon_noDb st f hdb⟩
  rw [getNextSequence, if_pos hdb]

theorem C8_unconfigured_fails_cleanly_witness :
    getNextSequence stNoDb "coupon" = .error .dbNotConfigured :=
  (C8_unconfigured_fails_cleanly stNoDb rfl).1

/-- C9: Every `Coupon` record created by a successful issuance is
appended to the `coupon` collection with `code` equal to the generated
code, `channel` defaulting to `"whatsapp"` and `redeemed` defaulting to
`false`. -/
theorem C9_record_defaults (st : AppState) (f : Faults) (r : IssueResult)
    (hr : (generateCoupon st f).1 = .ok r) :
    (generateCoupon st f).2.coupons =
      st.coupons ++ [{ code := r.code, channel := some "whatsapp",
                       redeemed := false }] := by
  cases hb : st.dbConfigured
  · rw [generateCoupon_noDb st f hb] at hr
    cases hr
  · cases hp : f.persistFails
    · cases hrf : f.renderFails
      · rw [generateCoupon_success st f hb hp hrf] at hr
        simp only [Except.ok.injEq] at hr
        obtain rfl := hr
        rw [generateCoupon_success st f hb hp hrf]
        simp [persistedState, bumpState]
      · rw [generateCoupon_renderFail st f hb hp hrf] at hr
        cases hr
    · rw [generateCoupon_persistFail st f hb hp] at hr
      cases hr

theorem C9_record_defaults_witness :
    (generateCoupon freshState noFaults).2.coupons =
      freshState.coupons ++
        [{ code := "WBAU10DIC-000001", channel := some "whatsapp",
           redeemed := false }] :=
  C9_record_defaults freshState noFaults
    { code := "WBAU10DIC-000001", image := { forCode := "WBAU10DIC-000001" },
      filename := "miabaucoupon_WBAU10DIC-000001.png" } rfl

end CouponBackend
